import Mathlib

/-!
Verification of the travel_concierge memory-management core.

This file shallowly embeds the memory-related parts of `src/agent.py` and
`src/state.py`: memory notes, the `TravelState` fields they live in, the
markdown renderers, the trimming session, the instruction builder, memory
consolidation, and the date helper `today_iso_utc`.

Python strings are modelled as Lean `String`s; the Python string primitives
the code uses (`str.strip`, `str.lower`, lexicographic comparison, list
slicing, `"\n".join`) are embedded as executable functions over the
underlying character lists so that every definition evaluates inside the
kernel.  Impure inputs (the UTC clock, the delegated chat-completion call,
`json.loads`) are passed to the embedded functions as explicit arguments.
-/

namespace TravelConcierge

/-! ### Python string primitives -/

/-- The whitespace characters removed by Python `str.strip()`. -/
def pyIsSpace (c : Char) : Bool :=
  c == ' ' || c == '\t' || c == '\n' || c == '\r' || c == '\x0b' || c == '\x0c'

/-- Remove leading and trailing whitespace from a character list. -/
def trimChars (l : List Char) : List Char :=
  ((l.dropWhile pyIsSpace).reverse.dropWhile pyIsSpace).reverse

/-- Embeds Python `s.strip()`. -/
def pyStrip (s : String) : String := ⟨trimChars s.data⟩

/-- ASCII lower-casing of a single character (the fragment of Python
`str.lower()` relevant to this code base). -/
def charLower (c : Char) : Char :=
  if 65 ≤ c.toNat && c.toNat ≤ 90 then Char.ofNat (c.toNat + 32) else c

/-- Embeds Python `s.lower()`. -/
def pyLower (s : String) : String := ⟨s.data.map charLower⟩

/-- Code points of a string, used for lexicographic comparison. -/
def strKey (s : String) : List Nat := s.data.map Char.toNat

/-- Lexicographic `≤` on code-point lists: embeds Python string comparison. -/
def lexLe : List Nat → List Nat → Bool
  | [], _ => true
  | _ :: _, [] => false
  | a :: as, b :: bs => if a < b then true else if b < a then false else lexLe as bs

/-- Embeds Python `"\n".join(lines)`. -/
def joinNL : List String → String
  | [] => ""
  | [x] => x
  | x :: xs => x ++ "\n" ++ joinNL xs

/-- Embeds the Python slice `xs[start:]`, including negative `start`. -/
def pySliceFrom (start : Int) (xs : List α) : List α :=
  if start < 0 then xs.drop (xs.length + start).toNat else xs.drop start.toNat

/-- Embeds the Python slice `xs[:stop]`, including negative `stop`. -/
def pySliceTo (stop : Int) (xs : List α) : List α :=
  if stop < 0 then xs.take (xs.length + stop).toNat else xs.take stop.toNat

/-! ### Data model (`src/state.py`) -/

/-- A memory note dict: `{"text": ..., "last_update_date": ..., "keywords": ...}`
(`MemoryNote` / the note dicts produced by `save_memory_note`). -/
structure MemoryNote where
  text : String
  last_update_date : String
  keywords : List String
deriving DecidableEq, Repr

/-- The fields of `TravelState` (src/state.py) used by the claims.
`global_memory_notes` embeds `global_memory["notes"]` and
`session_memory_notes` embeds `session_memory["notes"]`; `none` models the
key being absent or set to Python `None`. -/
structure TravelState where
  global_memory_notes : Option (List MemoryNote)
  session_memory_notes : Option (List MemoryNote)
  system_frontmatter : String
  global_memories_md : String
  session_memories_md : String
  inject_session_memories_next_turn : Bool
deriving DecidableEq, Repr

/-- Zero-pad a number to two digits, as `strftime` does for `%m` / `%d`. -/
def pad2 (n : Nat) : String := if n < 10 then "0" ++ toString n else toString n

/-- Zero-pad a number to four digits, as `strftime` does for `%Y`. -/
def pad4 (n : Nat) : String :=
  if n < 10 then "000" ++ toString n
  else if n < 100 then "00" ++ toString n
  else if n < 1000 then "0" ++ toString n
  else toString n

/-- Embeds `today_iso_utc` (src/state.py lines 191-193):
`datetime.now(timezone.utc).strftime("%Y-%m-%dT")`.  The UTC clock is
passed as explicit year/month/day arguments.  Note the format string ends
in a literal `T`. -/
def today_iso_utc (year month day : Nat) : String :=
  pad4 year ++ "-" ++ pad2 month ++ "-" ++ pad2 day ++ "T"

/-! ### `save_memory_note` (src/agent.py lines 30-86) -/

/-- A value appearing in the `keywords` argument of `save_memory_note`:
either a Python `str` or some non-string value (rejected by the
`isinstance(k, str)` filter). -/
inductive PyVal where
  | str (s : String)
  | nonstr
deriving DecidableEq, Repr

/-- Embeds the keyword-cleaning comprehension of `save_memory_note`:
`[k.strip().lower() for k in keywords if isinstance(k, str) and k.strip()][:3]`. -/
def clean_keywords (keywords : List PyVal) : List String :=
  ((keywords.filter fun k =>
      match k with
      | .str s => !(pyStrip s == "")
      | .nonstr => false).map fun k =>
      match k with
      | .str s => pyLower (pyStrip s)
      | .nonstr => "").take 3

/-- Embeds the `save_memory_note` tool (src/agent.py lines 30-86).  The
`today` argument is the value of the impure call `today_iso_utc()`.  The
code first ensures `session_memory["notes"]` exists and is not `None`,
then appends one new note dict. -/
def save_memory_note (today : String) (text : String) (keywords : List PyVal)
    (s : TravelState) : TravelState :=
  let notes := s.session_memory_notes.getD []
  let note : MemoryNote :=
    { text := pyStrip text, last_update_date := today, keywords := clean_keywords keywords }
  { s with session_memory_notes := some (notes ++ [note]) }

/-! ### Memory rendering (src/agent.py lines 281-295) -/

/-- The descending-date ordering used by `render_global_memories_md`:
`a` comes no later than `b` when `b`'s date is `≤` `a`'s date
(Python `sorted(..., key=..., reverse=True)`). -/
def dateGe (a b : MemoryNote) : Prop :=
  lexLe (strKey b.last_update_date) (strKey a.last_update_date) = true

instance : DecidableRel dateGe := fun _ _ =>
  inferInstanceAs (Decidable (_ = true))

/-- Embeds `render_global_memories_md` (src/agent.py lines 281-287).
Python's `sorted` is a stable sort, modelled by `List.insertionSort`
(which is stable for the same tie order). -/
def render_global_memories_md (global_notes : List MemoryNote) (k : Int) : String :=
  if global_notes = [] then "- (none)"
  else
    let notes_sorted := List.insertionSort dateGe global_notes
    let top := pySliceTo k notes_sorted
    joinNL (top.map fun n => "- " ++ n.text)

/-- Embeds `render_session_memories_md` (src/agent.py lines 290-295):
takes `session_notes[-k:]` with no sorting. -/
def render_session_memories_md (session_notes : List MemoryNote) (k : Int) : String :=
  if session_notes = [] then "- (none)"
  else
    let top := pySliceFrom (-k) session_notes
    joinNL (top.map fun n => "- " ++ n.text)

/-! ### Memory consolidation (src/agent.py lines 430-499) -/

/-- What `json.loads` can return when it does not raise: a Python list
(whose elements this embedding types as notes, the shape the function
stores) or any non-list value. -/
inductive JsonOutcome where
  | jlist (notes : List MemoryNote)
  | nonlist
deriving DecidableEq, Repr

/-- Embeds `consolidate_memory` (src/agent.py lines 430-499).

The two impure steps are passed as arguments:
`llm` is the outcome of `client.chat.completions.create(...)` —
`Except.error` models that call raising, `Except.ok content` models a
response whose message content is `content` (`none` = Python `None`) —
and `loads` is `json.loads`, applied to the stripped content.

The result pairs the final state with `Except.ok ()` for normal return or
`Except.error ()` when the delegated call's exception propagates out of
the function.  In the Python code the `try` block starts only after the
`client.chat.completions.create` call, so an exception there escapes
before any mutation of the state. -/
def consolidate_memory (loads : String → Except Unit JsonOutcome)
    (llm : Except Unit (Option String)) (s : TravelState) :
    TravelState × Except Unit Unit :=
  let session_notes := s.session_memory_notes.getD []
  if session_notes = [] then (s, .ok ())
  else
    let global_notes := s.global_memory_notes.getD []
    match llm with
    | .error e => (s, .error e)
    | .ok content =>
      let consolidated_text := pyStrip (content.getD "")
      let s1 :=
        match loads consolidated_text with
        | .ok (.jlist consolidated_notes) =>
            { s with global_memory_notes := some consolidated_notes }
        | .ok .nonlist =>
            { s with global_memory_notes := some (global_notes ++ session_notes) }
        | .error _ =>
            { s with global_memory_notes := some (global_notes ++ session_notes) }
      ({ s1 with session_memory_notes := some [] }, .ok ())

/-! ### Session trimming (src/agent.py lines 207-267) -/

/-- A conversation buffer entry, as the dict items the session stores:
`role` is the `"role"` key (`none` = key absent), `content` its payload. -/
structure SessionItem where
  role : Option String
  content : String
deriving DecidableEq, Repr

/-- Embeds `_is_user_msg` (src/agent.py lines 207-215) on dict items: when
the `"role"` key is present the item is a user message iff the role equals
`"user"`; when it is absent, both remaining branches of the Python code
compare a missing role to `"user"` and yield `False`. -/
def is_user_msg (it : SessionItem) : Bool :=
  match it.role with
  | some r => r == "user"
  | none => false

/-- Number of user-role entries in a buffer. -/
def countUsers (l : List SessionItem) : Nat := l.countP is_user_msg

/-- The backward scan of `_trim_to_last_turns`, run on the reversed buffer:
keep items until the `k`-th user message (inclusive) has been taken; if
fewer than `k` user messages exist, keep everything. -/
def takeToKthUser (k : Nat) : List SessionItem → List SessionItem
  | [] => []
  | x :: xs =>
    if is_user_msg x then
      if k = 1 then [x] else x :: takeToKthUser (k - 1) xs
    else x :: takeToKthUser k xs

/-- Embeds `TrimmingSession._trim_to_last_turns` (src/agent.py lines
253-267): scan from the end counting user messages; when the count reaches
`max_turns` at index `i`, return `items[i:]`; otherwise return the whole
list. -/
def trim_to_last_turns (max_turns : Nat) (items : List SessionItem) :
    List SessionItem :=
  (takeToKthUser max_turns items.reverse).reverse

/-- The state a `TrimmingSession` closes over: its `max_turns` (already
normalised by `max(1, int(max_turns))` in `__init__`), its `_items`
buffer, and the `inject_session_memories_next_turn` flag of the
`TravelState` it holds. -/
structure SessionState where
  max_turns : Nat
  items : List SessionItem
  inject_session_memories_next_turn : Bool
deriving DecidableEq, Repr

/-- Embeds `TrimmingSession.add_items` (src/agent.py lines 233-243):
return unchanged on an empty argument; otherwise extend the buffer, trim,
and set the flag when the trim removed anything. -/
def add_items (s : SessionState) (new_items : List SessionItem) : SessionState :=
  if new_items = [] then s
  else
    let all := s.items ++ new_items
    let trimmed := trim_to_last_turns s.max_turns all
    { s with items := trimmed,
             inject_session_memories_next_turn :=
               if trimmed.length < all.length then true
               else s.inject_session_memories_next_turn }

/-- Embeds `TrimmingSession.get_items` (src/agent.py lines 228-231):
`trimmed[-limit:] if (limit is not None and limit >= 0) else trimmed`. -/
def get_items (s : SessionState) (limit : Option Int) : List SessionItem :=
  let trimmed := trim_to_last_turns s.max_turns s.items
  match limit with
  | some l => if 0 ≤ l then pySliceFrom (-l) trimmed else trimmed
  | none => trimmed

/-! ### Dynamic instructions (src/agent.py lines 302-423) -/

/-- The `MEMORY_INSTRUCTIONS` constant (src/agent.py lines 302-335). -/
def MEMORY_INSTRUCTIONS : String :=
  "\n<memory_policy>\nYou may receive two memory lists:\n- GLOBAL memory = long-term defaults (\"usually / in general\").\n- SESSION memory = trip-specific overrides (\"this trip / this time\").\n\nHow to use memory:\n- Use memory only when it is relevant to the user's current decision (flight/hotel/insurance choices).\n- Apply relevant memory automatically when setting tone, proposing options and making recommendations.\n- Do not repeat memory verbatim to the user unless it's necessary to confirm a critical constraint.\n\nPrecedence and conflicts:\n1) The user's latest message in this conversation overrides everything.\n2) SESSION memory overrides GLOBAL memory for this trip when they conflict.\n3) Within the same memory list, if two items conflict, prefer the most recent by date.\n4) Treat GLOBAL memory as a default, not a hard constraint, unless the user explicitly states it as non-negotiable.\n\nWhen to ask a clarifying question:\n- Ask exactly one focused question only if a memory materially affects booking and the user's intent is ambiguous.\n\nWhere memory should influence decisions:\n- Flights: seat preference, baggage habits, airline loyalty/status, layover tolerance.\n- Hotels: neighborhood/location style, room preferences, brand loyalty IDs/status.\n- Insurance: known coverage profile, whether the user wants add-ons.\n\nMemory updates:\n- Do NOT treat \"this time\" requests as changes to GLOBAL defaults.\n- Only promote a preference into GLOBAL memory if the user indicates it's a lasting rule.\n- If a new durable preference/constraint appears, store it via the memory tool.\n\nSafety:\n- Never store or echo sensitive PII (passport numbers, payment details, full DOB).\n</memory_policy>\n"

/-- Embeds `BASE_INSTRUCTIONS_TEMPLATE.format(current_date=..., current_year=...)`
(src/agent.py lines 337-353 and 410-413). -/
def base_instructions (current_date current_year : String) : String :=
  "\nYou are a concise, reliable travel concierge.\nHelp users plan and book flights, hotels, and car/travel insurance.\n\nToday's date is: " ++ current_date ++
  "\n\nGuidelines:\n- Collect key trip details and confirm understanding.\n- Ask only one focused clarifying question at a time.\n- Provide a few strong options with brief tradeoffs, then recommend one.\n- Respect stable user preferences and constraints; avoid assumptions.\n- Before booking, restate all details and get explicit approval.\n- Never invent prices, availability, or policies—use tools or state uncertainty.\n- Do not repeat sensitive PII; only request what is required.\n- Track multi-step itineraries and unresolved decisions.\n- When a date is provided without a year, assume the current year (" ++ current_year ++ ").\n"

/-- The header line prepended to the session-memory block in
`build_instructions`. -/
def SESSION_HEADER : String :=
  "\n\nSESSION memory (temporary; overrides GLOBAL when conflicting):\n"

/-- The refresh step at the top of `build_instructions` (src/agent.py
lines 395-398): when the flag is set and `session_memories_md` is falsy,
re-render it from the session notes (with the default `k = 8`). -/
def bi_refresh (s : TravelState) : TravelState :=
  if s.inject_session_memories_next_turn && (s.session_memories_md == "") then
    { s with session_memories_md :=
        render_session_memories_md (s.session_memory_notes.getD []) 8 }
  else s

/-- The emission test of `build_instructions` (src/agent.py line 401):
`s.inject_session_memories_next_turn and s.session_memories_md`. -/
def bi_emit (s : TravelState) : Bool :=
  s.inject_session_memories_next_turn && !(s.session_memories_md == "")

/-- The result of one `build_instructions` invocation: the mutated state,
the `session_block` local, and the returned instruction string. -/
structure BuildResult where
  state : TravelState
  session_block : String
  output : String
deriving Repr

/-- Embeds `build_instructions` (src/agent.py lines 384-423).  The impure
`datetime.now()` values are passed as the pre-formatted `current_date` and
`current_year` strings. -/
def build_instructions (current_date current_year : String) (s0 : TravelState) :
    BuildResult :=
  let s1 := bi_refresh s0
  let session_block := if bi_emit s1 then SESSION_HEADER ++ s1.session_memories_md else ""
  let s2 :=
    if bi_emit s1 then
      { s1 with inject_session_memories_next_turn := false, session_memories_md := "" }
    else s1
  { state := s2
    session_block := session_block
    output :=
      base_instructions current_date current_year ++
      "\n\n<user_profile>\n" ++ s2.system_frontmatter ++ "\n</user_profile>" ++
      "\n\n<memories>\n" ++ "GLOBAL memory:\n" ++
      (if s2.global_memories_md == "" then "- (none)" else s2.global_memories_md) ++
      session_block ++ "\n</memories>" ++ "\n\n" ++ MEMORY_INSTRUCTIONS }

/-! ### Helper lemmas -/

/-- A string is `""` exactly when its character list is empty. -/
lemma data_eq_nil_iff (a : String) : a.data = [] ↔ a = "" := by
  constructor
  · intro h
    cases a with
    | mk d => cases h; rfl
  · intro h
    rw [h]

/-- Appending to a non-empty string yields a non-empty string. -/
lemma append_ne_empty_left (a b : String) (ha : a ≠ "") : a ++ b ≠ "" := by
  intro hc
  apply ha
  have hd := congrArg String.data hc
  rw [String.data_append] at hd
  have hnil : a.data ++ b.data = [] := hd
  exact (data_eq_nil_iff a).mp (List.append_eq_nil.mp hnil).1

/-- `pySliceTo` with a non-negative bound is `List.take`. -/
lemma pySliceTo_nonneg (k : Int) (hk : 0 ≤ k) (xs : List α) :
    pySliceTo k xs = xs.take k.toNat := by
  unfold pySliceTo
  rw [if_neg (by omega : ¬ k < 0)]

/-- `pySliceFrom (-k)` with `k ≥ 1` keeps the last `min k len` elements. -/
lemma pySliceFrom_neg (k : Int) (hk : 1 ≤ k) (xs : List α) :
    pySliceFrom (-k) xs = xs.drop (xs.length - k.toNat) := by
  unfold pySliceFrom
  rw [if_pos (by omega : (-k : Int) < 0)]
  congr 1
  omega

/-! ### Claim C3 -/

/-- Claim C3 (code bug): the spec says every `last_update_date` the program
generates is a date-only string of exactly the form `YYYY-MM-DD`, but
`today_iso_utc` formats with `"%Y-%m-%dT"`, so every value it returns
carries a trailing literal `T`: at UTC date 2026-10-12 it returns
`"2026-10-12T"`, an 11-character string that is not equal to
`"2026-10-12"`. -/
theorem today_iso_utc_has_trailing_T (y m d : Nat) :
    today_iso_utc y m d = (pad4 y ++ "-" ++ pad2 m ++ "-" ++ pad2 d) ++ "T"
  ∧ today_iso_utc y m d ≠ pad4 y ++ "-" ++ pad2 m ++ "-" ++ pad2 d
  ∧ today_iso_utc 2026 10 12 = "2026-10-12T"
  ∧ today_iso_utc 2026 10 12 ≠ "2026-10-12" := by
  refine ⟨rfl, ?_, by decide, by decide⟩
  intro hc
  have hlen := congrArg String.length hc
  rw [today_iso_utc] at hlen
  simp only [String.length_append] at hlen
  have h1 : ("T" : String).length = 1 := rfl
  omega

/-! ### Claim C10 -/

/-- Claim C10: `get_items` with `limit = 0` returns the entire trimmed view
of the buffer (the Python slice `trimmed[-0:]` is `trimmed[0:]`, the whole
list, not the empty list), and `get_items` with a negative limit likewise
returns the entire trimmed view (the guard `limit >= 0` fails, taking the
`else trimmed` branch). -/
theorem get_items_zero_and_negative_limit (s : SessionState) (l : Int) :
    get_items s (some 0) = get_items s none
  ∧ (l < 0 → get_items s (some l) = get_items s none) := by
  constructor
  · simp [get_items, pySliceFrom]
  · intro hl
    have hneg : ¬ (0 ≤ l) := by omega
    simp [get_items, hneg]

/-- Witness for C10 at a concrete buffer and `limit = -3`. -/
theorem get_items_zero_and_negative_limit_witness :
    get_items ⟨1, [⟨some "user", "u"⟩], false⟩ (some (-3))
      = get_items ⟨1, [⟨some "user", "u"⟩], false⟩ none :=
  (get_items_zero_and_negative_limit ⟨1, [⟨some "user", "u"⟩], false⟩ (-3)).2 (by decide)

/-! ### Claim C9 -/

/-- The spec's reading of the keyword normalisation: filter to string
entries that are non-empty after stripping, then strip and lowercase each,
then truncate to the first 3 (duplicates preserved). -/
def keywordSpecNorm (keywords : List PyVal) : List String :=
  (((keywords.filterMap fun k =>
      match k with
      | .str s => some s
      | .nonstr => none).filter fun s => !(pyStrip s == "")).map
    fun s => pyLower (pyStrip s)).take 3

/-- The keyword comprehension of `save_memory_note` computes exactly the
spec's normalisation. -/
lemma clean_keywords_eq_spec (kws : List PyVal) :
    clean_keywords kws = keywordSpecNorm kws := by
  unfold clean_keywords keywordSpecNorm
  congr 1
  induction kws with
  | nil => rfl
  | cons k t ih =>
    cases k with
    | str s =>
      by_cases h : pyStrip s == ""
      · simp [List.filter_cons, List.filterMap_cons, h, ih]
      · simp [List.filter_cons, List.filterMap_cons, h, ih]
    | nonstr => simp [List.filter_cons, List.filterMap_cons, ih]

/-- Claim C9: `save_memory_note` appends exactly one note to
`session_memory.notes` (never touching `global_memory`); the stored text
is the stripped input text; the stored keywords are the input keywords
filtered to string entries non-empty after stripping, each stripped and
lowercased, truncated to the first 3 with duplicates preserved; in
particular the keywords `["Seat", "  ", "SEAT", "extra", "more"]` are
stored as `["seat", "seat", "extra"]`. -/
theorem save_memory_note_spec (today text : String) (kws : List PyVal)
    (s : TravelState) :
    (save_memory_note today text kws s).session_memory_notes
      = some ((s.session_memory_notes.getD []) ++
          [{ text := pyStrip text, last_update_date := today,
             keywords := clean_keywords kws }])
  ∧ (save_memory_note today text kws s).global_memory_notes = s.global_memory_notes
  ∧ clean_keywords kws = keywordSpecNorm kws
  ∧ pyStrip "  Prefers window seats " = "Prefers window seats"
  ∧ clean_keywords [.str "Seat", .str "  ", .str "SEAT", .str "extra", .str "more"]
      = ["seat", "seat", "extra"] :=
  ⟨rfl, rfl, clean_keywords_eq_spec kws, by decide, by decide⟩

/-! ### Claims C1 and C2 -/

/-- A concrete global note for the consolidation scenarios. -/
def exGlobalNote : MemoryNote :=
  { text := "User usually prefers aisle seats.",
    last_update_date := "2024-06-25", keywords := ["seat_preference"] }

/-- A concrete session note for the consolidation scenarios. -/
def exSessionNote : MemoryNote :=
  { text := "Prefers window seats this trip.",
    last_update_date := "2025-04-05", keywords := ["seat"] }

/-- A concrete state with one global and one session note. -/
def exConsState : TravelState :=
  { global_memory_notes := some [exGlobalNote],
    session_memory_notes := some [exSessionNote],
    system_frontmatter := "", global_memories_md := "", session_memories_md := "",
    inject_session_memories_next_turn := false }

/-- An arbitrary concrete `json.loads` behaviour (never consulted on the
exception path). -/
def anyLoads : String → Except Unit JsonOutcome := fun _ => .ok .nonlist

/-- Counterexample to claim C1 as stated: on a state whose session notes
are non-empty, when the delegated summarization call raises, the exception
propagates out of `consolidate_memory` before the `try` block is reached
and `session_memory.notes` is left unchanged — it is not cleared to the
empty list. -/
theorem consolidate_raise_keeps_session_notes :
    (consolidate_memory anyLoads (.error ()) exConsState).1.session_memory_notes
      = some [exSessionNote]
  ∧ some [exSessionNote] ≠ (some [] : Option (List MemoryNote)) := by
  refine ⟨rfl, by decide⟩

/-- Claim C1, amended: for every call with non-empty session notes in
which the delegated call returns (whether its output parses to a list,
parses to a non-list, or fails to parse), `session_memory.notes` is
cleared to `some []` and the call returns normally; if the delegated call
raises, the exception propagates and the state is unchanged. -/
theorem consolidate_clears_session_notes (loads : String → Except Unit JsonOutcome)
    (content : Option String) (s : TravelState)
    (h : s.session_memory_notes.getD [] ≠ []) :
    (consolidate_memory loads (.ok content) s).1.session_memory_notes = some []
  ∧ (consolidate_memory loads (.ok content) s).2 = .ok ()
  ∧ (consolidate_memory loads (.error ()) s).1 = s := by
  refine ⟨?_, ?_, ?_⟩ <;>
    · simp only [consolidate_memory]
      rw [if_neg h]

/-- Witness for the amended C1 at a concrete state and a response that
fails to parse. -/
theorem consolidate_clears_session_notes_witness :
    (consolidate_memory anyLoads (.ok (some "not json")) exConsState).1.session_memory_notes
      = some [] :=
  (consolidate_clears_session_notes anyLoads (some "not json") exConsState (by decide)).1

/-- Counterexample to claim C2 as stated: when the delegated call itself
raises, `global_memory.notes` is left unchanged rather than set to the
concatenation of the prior global and session notes. -/
theorem consolidate_raise_no_union :
    (consolidate_memory anyLoads (.error ()) exConsState).1.global_memory_notes
      = some [exGlobalNote]
  ∧ (consolidate_memory anyLoads (.error ()) exConsState).1.global_memory_notes
      ≠ some [exGlobalNote, exSessionNote] := by
  refine ⟨rfl, by decide⟩

/-- Claim C2, amended: for every call with non-empty session notes in
which the delegated call returns and its output either fails to parse or
parses to a non-list, `global_memory.notes` afterwards equals the prior
global notes followed by the prior session notes, in that order; no note
is dropped.  (When the delegated call raises, the state is instead left
unchanged — see the amended C1.) -/
theorem consolidate_fallback_union (loads : String → Except Unit JsonOutcome)
    (content : Option String) (s : TravelState)
    (h : s.session_memory_notes.getD [] ≠ [])
    (hfail : loads (pyStrip (content.getD "")) = .error ()
           ∨ loads (pyStrip (content.getD "")) = .ok .nonlist) :
    (consolidate_memory loads (.ok content) s).1.global_memory_notes
      = some (s.global_memory_notes.getD [] ++ s.session_memory_notes.getD []) := by
  simp only [consolidate_memory]
  rw [if_neg h]
  rcases hfail with hf | hf <;> rw [hf]

/-- Witness for the amended C2 at a concrete state and an unparsable
response. -/
theorem consolidate_fallback_union_witness :
    (consolidate_memory anyLoads (.ok (some "not json")) exConsState).1.global_memory_notes
      = some (exConsState.global_memory_notes.getD [] ++
              exConsState.session_memory_notes.getD []) :=
  consolidate_fallback_union anyLoads (some "not json") exConsState (by decide)
    (Or.inr rfl)

/-! ### Claim C4 -/

/-- The backward scan keeps at most `k` user messages (for `k ≥ 1`). -/
lemma takeToKthUser_countP (l : List SessionItem) :
    ∀ k, 1 ≤ k → countUsers (takeToKthUser k l) ≤ k := by
  induction l with
  | nil => intro k _; simp [takeToKthUser, countUsers]
  | cons x xs ih =>
    intro k hk
    by_cases hu : is_user_msg x
    · by_cases h1 : k = 1
      · subst h1
        simp [takeToKthUser, hu, countUsers, List.countP_cons]
      · have hk2 : 1 ≤ k - 1 := by omega
        have hrec := ih (k - 1) hk2
        simp [takeToKthUser, hu, h1, countUsers, List.countP_cons] at hrec ⊢
        omega
    · have hrec := ih k hk
      simp [takeToKthUser, hu, countUsers, List.countP_cons] at hrec ⊢
      omega

/-- If the whole list has fewer than `k` user messages, the backward scan
keeps everything. -/
lemma takeToKthUser_eq_of_lt (l : List SessionItem) :
    ∀ k, countUsers l < k → takeToKthUser k l = l := by
  induction l with
  | nil => intro k _; rfl
  | cons x xs ih =>
    intro k hk
    by_cases hu : is_user_msg x
    · have hcount : countUsers (x :: xs) = countUsers xs + 1 := by
        simp [countUsers, List.countP_cons, hu]
      have h1 : k ≠ 1 := by omega
      have h2 : countUsers xs < k - 1 := by omega
      simp [takeToKthUser, hu, h1, ih (k - 1) h2]
    · have hcount : countUsers (x :: xs) = countUsers xs := by
        simp [countUsers, List.countP_cons, hu]
      simp [takeToKthUser, hu, ih k (by omega)]

/-- If the list has strictly more than `k ≥ 1` user messages, the backward
scan drops at least one element. -/
lemma takeToKthUser_length_lt (l : List SessionItem) :
    ∀ k, 1 ≤ k → k < countUsers l → (takeToKthUser k l).length < l.length := by
  induction l with
  | nil => intro k _ hk; simp [countUsers] at hk
  | cons x xs ih =>
    intro k hk1 hk
    by_cases hu : is_user_msg x
    · have hcount : countUsers (x :: xs) = countUsers xs + 1 := by
        simp [countUsers, List.countP_cons, hu]
      by_cases h1 : k = 1
      · subst h1
        have hxs : 1 ≤ countUsers xs := by omega
        have hlen : 1 ≤ xs.length :=
          le_trans hxs (by simpa [countUsers] using List.countP_le_length (p := is_user_msg) (l := xs))
        simp [takeToKthUser, hu]
        omega
      · have hrec := ih (k - 1) (by omega) (by omega)
        simp [takeToKthUser, hu, h1]
        omega
    · have hcount : countUsers (x :: xs) = countUsers xs := by
        simp [countUsers, List.countP_cons, hu]
      have hrec := ih k hk1 (by omega)
      simp [takeToKthUser, hu]
      omega

/-- Reversal does not change the user count. -/
lemma countUsers_reverse (l : List SessionItem) :
    countUsers l.reverse = countUsers l := by
  simp [countUsers, List.countP_reverse]

/-- The trimmed buffer has at most `k` user entries (for `k ≥ 1`). -/
lemma trim_countUsers_le (k : Nat) (hk : 1 ≤ k) (l : List SessionItem) :
    countUsers (trim_to_last_turns k l) ≤ k := by
  unfold trim_to_last_turns
  rw [countUsers_reverse]
  exact takeToKthUser_countP l.reverse k hk

/-- A buffer with fewer than `k` user entries is not trimmed at all. -/
lemma trim_eq_of_lt (k : Nat) (l : List SessionItem) (h : countUsers l < k) :
    trim_to_last_turns k l = l := by
  unfold trim_to_last_turns
  rw [takeToKthUser_eq_of_lt l.reverse k (by rwa [countUsers_reverse]),
    List.reverse_reverse]

/-- A buffer with strictly more than `k ≥ 1` user entries gets strictly
shorter when trimmed. -/
lemma trim_length_lt (k : Nat) (l : List SessionItem) (hk : 1 ≤ k)
    (h : k < countUsers l) :
    (trim_to_last_turns k l).length < l.length := by
  unfold trim_to_last_turns
  rw [List.length_reverse]
  have := takeToKthUser_length_lt l.reverse k hk (by rwa [countUsers_reverse])
  simpa using this

/-- Counterexample to claim C4 as stated, which quantifies over every
buffer contents including an empty appended batch.  First input:
`add_items` on a buffer already holding two user entries with
`max_turns = 1` and an empty `items` argument returns immediately, so the
stored buffer keeps 2 > 1 user entries and the flag stays false.  Second
input: a batch whose pre-trim contents are `[assistant, user]` with
`max_turns = 1` has exactly 1 ≤ 1 user entries, yet the leading assistant
entry is removed (the cut point is the `max_turns`-th user message from
the end, so entries before it are dropped even when the user count does
not exceed `max_turns`). -/
theorem add_items_claim_counterexample :
    (¬ countUsers (add_items ⟨1, [⟨some "user", "u1"⟩, ⟨some "user", "u2"⟩], false⟩
        []).items ≤ 1)
  ∧ (add_items ⟨1, [⟨some "user", "u1"⟩, ⟨some "user", "u2"⟩], false⟩
        []).inject_session_memories_next_turn = false
  ∧ countUsers [⟨some "assistant", "a"⟩, (⟨some "user", "u"⟩ : SessionItem)] ≤ 1
  ∧ (add_items ⟨1, [], false⟩ [⟨some "assistant", "a"⟩, ⟨some "user", "u"⟩]).items
      ≠ [⟨some "assistant", "a"⟩, ⟨some "user", "u"⟩] := by
  refine ⟨by decide, rfl, by decide, by decide⟩

/-- Claim C4, amended: for every buffer, every `max_turns = k ≥ 1`, and
every non-empty appended batch, after `add_items` the stored buffer
contains at most `k` user-role entries; if the pre-trim buffer (existing
entries plus the appended ones) contained strictly more than `k` user-role
entries then `inject_session_memories_next_turn` is true afterwards; and
if it contained strictly fewer than `k` user-role entries, no entry is
removed. -/
theorem add_items_trim_invariant (buf its : List SessionItem) (k : Nat) (inj : Bool)
    (hk : 1 ≤ k) (hits : its ≠ []) :
    countUsers (add_items ⟨k, buf, inj⟩ its).items ≤ k
  ∧ (k < countUsers (buf ++ its) →
      (add_items ⟨k, buf, inj⟩ its).inject_session_memories_next_turn = true)
  ∧ (countUsers (buf ++ its) < k →
      (add_items ⟨k, buf, inj⟩ its).items = buf ++ its) := by
  refine ⟨?_, ?_, ?_⟩
  · simp only [add_items, if_neg hits]
    exact trim_countUsers_le k hk (buf ++ its)
  · intro h
    simp only [add_items, if_neg hits]
    rw [if_pos (trim_length_lt k (buf ++ its) hk h)]
  · intro h
    simp only [add_items, if_neg hits]
    exact trim_eq_of_lt k (buf ++ its) h

/-- Witness for the amended C4: appending a third user message to a buffer
of two user messages with `max_turns = 1` sets the injection flag. -/
theorem add_items_trim_invariant_witness :
    (add_items ⟨1, [⟨some "user", "u1"⟩, ⟨some "user", "u2"⟩], false⟩
        [⟨some "user", "u3"⟩]).inject_session_memories_next_turn = true :=
  (add_items_trim_invariant [⟨some "user", "u1"⟩, ⟨some "user", "u2"⟩]
    [⟨some "user", "u3"⟩] 1 false (by decide) (by decide)).2.1 (by decide)

/-! ### Claim C7 -/

/-- `lexLe` is reflexive. -/
lemma lexLe_refl : ∀ x : List Nat, lexLe x x = true := by
  intro x
  induction x with
  | nil => rfl
  | cons a as ih => simp [lexLe, Nat.lt_irrefl, ih]

/-- `lexLe` is total. -/
lemma lexLe_total : ∀ x y : List Nat, lexLe x y = true ∨ lexLe y x = true := by
  intro x
  induction x with
  | nil => intro y; left; rfl
  | cons a as ih =>
    intro y
    cases y with
    | nil => right; rfl
    | cons b bs =>
      rcases Nat.lt_trichotomy a b with h | h | h
      · left; simp [lexLe, h]
      · subst h
        rcases ih bs with h2 | h2
        · left; simp [lexLe, Nat.lt_irrefl, h2]
        · right; simp [lexLe, Nat.lt_irrefl, h2]
      · right; simp [lexLe, h]

/-- `lexLe` is transitive. -/
lemma lexLe_trans : ∀ x y z : List Nat,
    lexLe x y = true → lexLe y z = true → lexLe x z = true := by
  intro x
  induction x with
  | nil => intro y z _ _; rfl
  | cons a as ih =>
    intro y z hxy hyz
    cases y with
    | nil => simp [lexLe] at hxy
    | cons b bs =>
      cases z with
      | nil => simp [lexLe] at hyz
      | cons c cs =>
        by_cases hab : a < b
        · by_cases hbc : b < c
          · simp [lexLe, Nat.lt_trans hab hbc]
          · by_cases hcb : c < b
            · simp [lexLe, hbc, hcb] at hyz
            · have hbceq : b = c := by omega
              subst hbceq
              simp [lexLe, hab]
        · by_cases hba : b < a
          · simp [lexLe, hab, hba] at hxy
          · have heq : a = b := by omega
            subst heq
            simp only [lexLe, Nat.lt_irrefl, if_false] at hxy
            by_cases hac : a < c
            · simp [lexLe, hac]
            · by_cases hca : c < a
              · simp [lexLe, hac, hca] at hyz
              · have : a = c := by omega
                subst this
                simp only [lexLe, Nat.lt_irrefl, if_false] at hyz ⊢
                exact ih bs cs hxy hyz

instance : IsTotal MemoryNote dateGe :=
  ⟨fun a b => lexLe_total (strKey b.last_update_date) (strKey a.last_update_date)⟩

instance : IsTrans MemoryNote dateGe :=
  ⟨fun _ _ _ hab hbc => lexLe_trans _ _ _ hbc hab⟩

/-- Notes that all carry the same date are pairwise related by `dateGe`. -/
lemma pairwise_dateGe_of_same_date (d : String) :
    ∀ xs : List MemoryNote, (∀ n ∈ xs, n.last_update_date = d) →
      xs.Pairwise dateGe := by
  intro xs
  induction xs with
  | nil => intro _; exact List.Pairwise.nil
  | cons x t ih =>
    intro hall
    refine List.Pairwise.cons ?_ (ih fun n hn => hall n (List.mem_cons_of_mem x hn))
    intro b hb
    have hx := hall x (List.mem_cons_self x t)
    have hbd := hall b (List.mem_cons_of_mem x hb)
    unfold dateGe
    rw [hx, hbd]
    exact lexLe_refl _

/-- Stability of the sort used by `render_global_memories_md`: for any
date, the notes carrying that date appear in the sorted output in exactly
their original relative order. -/
lemma insertionSort_filter_date (notes : List MemoryNote) (d : String) :
    (List.insertionSort dateGe notes).filter (fun n => n.last_update_date == d)
      = notes.filter (fun n => n.last_update_date == d) := by
  set p : MemoryNote → Bool := fun n => n.last_update_date == d with hp
  have hall : ∀ n ∈ notes.filter p, n.last_update_date = d := by
    intro n hn
    exact eq_of_beq (List.mem_filter.mp hn).2
  have hpw : (notes.filter p).Pairwise dateGe :=
    pairwise_dateGe_of_same_date d _ hall
  have hsub : (notes.filter p).Sublist (List.insertionSort dateGe notes) :=
    List.sublist_insertionSort hpw (List.filter_sublist notes)
  have hself : (notes.filter p).filter p = notes.filter p :=
    List.filter_eq_self.mpr fun a ha => (List.mem_filter.mp ha).2
  have hsub2 : (notes.filter p).Sublist ((List.insertionSort dateGe notes).filter p) := by
    have h1 := hsub.filter p
    rwa [hself] at h1
  have hperm : ((List.insertionSort dateGe notes).filter p).Perm (notes.filter p) :=
    (List.perm_insertionSort dateGe notes).filter p
  exact (hsub2.eq_of_length hperm.length_eq.symm).symm

/-- Claim C7: `render_global_memories_md` sorts by `last_update_date`
descending with a stable sort (the sorted list is a permutation of the
input, is pairwise descending by date, and notes with equal dates keep
their original relative order), takes the first `k` of the sorted list,
renders each as one bullet line containing only its text, and returns the
literal placeholder `- (none)` on the empty list.  (`k` is restricted to
`k ≥ 0`, the domain on which "the first `k`" is meaningful; the function
is only ever called with its default `k = 6`.) -/
theorem render_global_sorted_stable (notes : List MemoryNote) (k : Int)
    (hk : 0 ≤ k) :
    (List.insertionSort dateGe notes).Perm notes
  ∧ (List.insertionSort dateGe notes).Sorted dateGe
  ∧ (∀ d, (List.insertionSort dateGe notes).filter (fun n => n.last_update_date == d)
        = notes.filter (fun n => n.last_update_date == d))
  ∧ render_global_memories_md [] k = "- (none)"
  ∧ (notes ≠ [] → render_global_memories_md notes k
      = joinNL (((List.insertionSort dateGe notes).take k.toNat).map
          fun n => "- " ++ n.text)) := by
  refine ⟨List.perm_insertionSort dateGe notes,
    List.sorted_insertionSort dateGe notes,
    insertionSort_filter_date notes, by simp [render_global_memories_md], ?_⟩
  intro hne
  simp only [render_global_memories_md, if_neg hne]
  rw [pySliceTo_nonneg k hk]

/-- Witness for C7 at the spec's three-date example: the 2025 note is
rendered first, then 2024, then 2023. -/
theorem render_global_sorted_stable_witness :
    render_global_memories_md
      [⟨"y2024", "2024-01-01", []⟩, ⟨"y2025", "2025-01-01", []⟩,
       ⟨"y2023", "2023-01-01", []⟩] 3
      = "- y2025\n- y2024\n- y2023" := by
  have h := (render_global_sorted_stable
    [⟨"y2024", "2024-01-01", []⟩, ⟨"y2025", "2025-01-01", []⟩,
     ⟨"y2023", "2023-01-01", []⟩] 3 (by decide)).2.2.2.2 (by decide)
  exact h.trans (by decide)

/-! ### Claim C8 -/

/-- Counterexample to claim C8 as stated, which quantifies over every `k`:
at `k = 0` the Python slice `session_notes[-0:]` is `session_notes[0:]`,
the whole list, so the function renders every note instead of the last 0
notes (which would render to the empty string). -/
theorem render_session_k_zero :
    render_session_memories_md [⟨"hello", "2025-01-01", []⟩] 0 = "- hello"
  ∧ render_session_memories_md [⟨"hello", "2025-01-01", []⟩] 0 ≠ "" := by
  refine ⟨by decide, by decide⟩

/-- Claim C8, amended: for every list of notes and every `k ≥ 1`,
`render_session_memories_md` returns exactly the last `min k len` notes of
the list in their original list order (a suffix of the input — no sorting
by date), each rendered as one bullet line containing only its text; on
the empty list it returns the literal placeholder `- (none)`.  (At `k = 0`
the function instead returns all notes, by the Python `-0` slice quirk.) -/
theorem render_session_last_k (notes : List MemoryNote) (k : Int) (hk : 1 ≤ k) :
    render_session_memories_md [] k = "- (none)"
  ∧ pySliceFrom (-k) notes <:+ notes
  ∧ (pySliceFrom (-k) notes).length = min k.toNat notes.length
  ∧ (notes ≠ [] → render_session_memories_md notes k
      = joinNL ((notes.drop (notes.length - k.toNat)).map fun n => "- " ++ n.text)) := by
  refine ⟨by simp [render_session_memories_md], ?_, ?_, ?_⟩
  · rw [pySliceFrom_neg k hk]
    exact List.drop_suffix _ _
  · rw [pySliceFrom_neg k hk, List.length_drop]
    omega
  · intro hne
    simp only [render_session_memories_md, if_neg hne]
    rw [pySliceFrom_neg k hk]

/-- Witness for the amended C8: with three notes whose dates are out of
order and `k = 2`, the output is the last two notes in append order, not
date order. -/
theorem render_session_last_k_witness :
    render_session_memories_md
      [⟨"a", "2025-01-01", []⟩, ⟨"b", "2023-01-01", []⟩, ⟨"c", "2024-01-01", []⟩] 2
      = "- b\n- c" := by
  have h := (render_session_last_k
    [⟨"a", "2025-01-01", []⟩, ⟨"b", "2023-01-01", []⟩, ⟨"c", "2024-01-01", []⟩]
    2 (by decide)).2.2.2 (by decide)
  exact h.trans (by decide)

/-! ### Claims C5 and C6 -/

/-- With the injection flag down, `build_instructions` emits no session
block and leaves the state unchanged. -/
lemma build_instructions_flag_down (d y : String) (t : TravelState)
    (hf : t.inject_session_memories_next_turn = false) :
    (build_instructions d y t).session_block = ""
  ∧ (build_instructions d y t).state = t := by
  have hr : bi_refresh t = t := by
    simp [bi_refresh, hf]
  have he : bi_emit t = false := by
    simp [bi_emit, hf]
  constructor
  · simp [build_instructions, hr, he]
  · simp [build_instructions, hr, he]

/-- Whenever `build_instructions` emits a session block, the resulting
state has the injection flag down. -/
lemma build_instructions_emit_clears_flag (d y : String) (t : TravelState)
    (h : (build_instructions d y t).session_block ≠ "") :
    (build_instructions d y t).state.inject_session_memories_next_turn = false := by
  by_cases he : bi_emit (bi_refresh t) = true
  · simp [build_instructions, he]
  · exfalso
    apply h
    simp only [build_instructions]
    rw [if_neg he]

/-- Claim C5: if the injection flag is true and the rendered session block
is non-empty, then `build_instructions` clears the flag and emits the
block, a second consecutive invocation (no intervening trim event) emits
no session block, and in general a session block is never emitted by two
consecutive invocations. -/
theorem build_instructions_one_shot (d y d2 y2 : String) (s : TravelState)
    (hf : s.inject_session_memories_next_turn = true)
    (hne : (if s.session_memories_md = "" then
              render_session_memories_md (s.session_memory_notes.getD []) 8
            else s.session_memories_md) ≠ "") :
    (build_instructions d y s).state.inject_session_memories_next_turn = false
  ∧ (build_instructions d y s).session_block ≠ ""
  ∧ (build_instructions d2 y2 (build_instructions d y s).state).session_block = ""
  ∧ (∀ t : TravelState, (build_instructions d y t).session_block ≠ "" →
      (build_instructions d2 y2 (build_instructions d y t).state).session_block = "") := by
  have hmd : (bi_refresh s).session_memories_md ≠ "" := by
    by_cases h0 : s.session_memories_md = ""
    · rw [if_pos h0] at hne
      have hb : (s.session_memories_md == "") = true := beq_iff_eq.mpr h0
      simp [bi_refresh, hf, hb]
      exact hne
    · rw [if_neg h0] at hne
      have hb : (s.session_memories_md == "") = false := beq_eq_false_iff_ne.mpr h0
      simp [bi_refresh, hf, hb]
      exact h0
  have hfr : (bi_refresh s).inject_session_memories_next_turn = true := by
    by_cases h0 : s.session_memories_md = ""
    · simp [bi_refresh, h0, hf]
    · simp [bi_refresh, h0, hf]
  have hemit : bi_emit (bi_refresh s) = true := by
    simp [bi_emit, hfr, hmd]
  have hflag : (build_instructions d y s).state.inject_session_memories_next_turn
      = false := by
    simp [build_instructions, hemit]
  have hblock : (build_instructions d y s).session_block ≠ "" := by
    simp only [build_instructions]
    rw [if_pos hemit]
    exact append_ne_empty_left SESSION_HEADER (bi_refresh s).session_memories_md
      (by decide)
  refine ⟨hflag, hblock, (build_instructions_flag_down d2 y2 _ hflag).1, ?_⟩
  intro t ht
  exact (build_instructions_flag_down d2 y2 _
    (build_instructions_emit_clears_flag d y t ht)).1

/-- Witness for C5 at a concrete state with one session note. -/
theorem build_instructions_one_shot_witness :
    (build_instructions "a" "b"
        ⟨none, some [⟨"hi", "2025-01-01", []⟩], "", "", "", true⟩).state.inject_session_memories_next_turn
      = false :=
  (build_instructions_one_shot "a" "b" "c" "d"
    ⟨none, some [⟨"hi", "2025-01-01", []⟩], "", "", "", true⟩
    (by decide) (by decide)).1

/-- Counterexample to claim C6 as stated: with the flag set and an empty
session-notes list, the rendered block is the placeholder `- (none)` —
which is non-empty — so `build_instructions` does emit a session-memory
block (containing only the placeholder) rather than emitting none. -/
theorem build_instructions_empty_notes_block :
    (build_instructions "January 15, 2026" "2026"
        ⟨none, some [], "", "", "", true⟩).session_block
      = "\n\nSESSION memory (temporary; overrides GLOBAL when conflicting):\n- (none)"
  ∧ (build_instructions "January 15, 2026" "2026"
        ⟨none, some [], "", "", "", true⟩).session_block ≠ "" := by
  refine ⟨rfl, by decide⟩

/-- Claim C6, amended: if `inject_session_memories_next_turn` is true,
`session_memories_md` is unset, and `session_memory.notes` is empty, the
rendered block is the non-empty placeholder `- (none)`, so
`build_instructions` emits a session-memory block consisting of the
placeholder and clears the flag. -/
theorem build_instructions_empty_notes_placeholder (d y : String) (s : TravelState)
    (hf : s.inject_session_memories_next_turn = true)
    (hmd : s.session_memories_md = "")
    (hn : s.session_memory_notes.getD [] = []) :
    (build_instructions d y s).session_block = SESSION_HEADER ++ "- (none)"
  ∧ (build_instructions d y s).state.inject_session_memories_next_turn = false := by
  have hb : (s.session_memories_md == "") = true := beq_iff_eq.mpr hmd
  have hr : (bi_refresh s).session_memories_md = "- (none)" := by
    simp [bi_refresh, hf, hb, hn, render_session_memories_md]
  have hfr : (bi_refresh s).inject_session_memories_next_turn = true := by
    simp [bi_refresh, hf, hb]
  have hemit : bi_emit (bi_refresh s) = true := by
    simp [bi_emit, hfr, hr]
  constructor
  · simp only [build_instructions]
    rw [if_pos hemit, hr]
  · simp [build_instructions, hemit]

/-- Witness for the amended C6 at a concrete state. -/
theorem build_instructions_empty_notes_placeholder_witness :
    (build_instructions "d" "y" ⟨none, none, "", "", "", true⟩).session_block
      = SESSION_HEADER ++ "- (none)" :=
  (build_instructions_empty_notes_placeholder "d" "y"
    ⟨none, none, "", "", "", true⟩ rfl rfl rfl).1

end TravelConcierge
